import Mathlib

/-!
Verification development for the bcf-events-monitor repository.

The Python source (src/bcf_monitor/parsers.py and src/bcf_monitor/monitor.py)
is shallowly embedded below.  Strings are modelled as lists of characters
(all inputs of interest are ASCII); Python functions that can raise an
uncaught exception are embedded with an Except Unit result, where
.error () marks the uncaught exception.  Regular-expression operations of
the source are translated into explicit character-list scanners whose
semantics on whitespace-collapsed ASCII input coincides with the
corresponding CPython re / strptime behaviour; each definition carries a
comment naming the source construct it embeds.  Bounded loops of the
source are embedded with an explicit fuel argument that is initialised
above the maximal possible number of iterations, so that every definition
is structurally recursive and kernel-reducible.
-/

namespace BCFMonitor

/-! ## Character utilities -/

/-- ASCII whitespace, the characters matched by the Python regex class \s
and stripped by str.strip for ASCII text. -/
def isSpaceC (c : Char) : Bool :=
  c == ' ' || c == '\t' || c == '\n' || c == '\r' || c == '\x0b' || c == '\x0c'

/-- ASCII letter, the character class [A-Za-z] used by the source regexes. -/
def isLetterC (c : Char) : Bool :=
  ('A' ≤ c && c ≤ 'Z') || ('a' ≤ c && c ≤ 'z')

/-- ASCII digit, the regex class \d on the ASCII inputs of interest. -/
def isDigC (c : Char) : Bool := '0' ≤ c && c ≤ '9'

/-- Word character for the regex boundary \b: letter, digit or underscore. -/
def wordC (c : Char) : Bool := isLetterC c || isDigC c || c == '_'

/-- Numeric value of a digit character. -/
def charVal (c : Char) : Nat := c.toNat - '0'.toNat

/-- Value of a digit string, as Python int() on an all-digit token. -/
def natOfDigits (l : List Char) : Nat := l.foldl (fun a c => a * 10 + charVal c) 0

/-- Decimal digits of a natural number; the fuel argument dominates the
number of divisions by ten, so the zero-fuel default is unreachable. -/
def natCharsGo : Nat → Nat → List Char
  | 0, _ => []
  | fuel + 1, n =>
    if n < 10 then [Nat.digitChar n]
    else natCharsGo fuel (n / 10) ++ [Nat.digitChar (n % 10)]

/-- Decimal rendering of a natural number, as Python str(n) for n ≥ 0. -/
def natChars (n : Nat) : List Char := natCharsGo (n + 1) n

/-- Lowercase an ASCII character list, as Python str.lower on ASCII text. -/
def lowerL (l : List Char) : List Char := l.map Char.toLower

/-- Does hay start with needle. -/
def leadsWith : List Char → List Char → Bool
  | [], _ => true
  | _ :: _, [] => false
  | a :: as, b :: bs => a == b && leadsWith as bs

/-- Substring test, the Python expression needle in hay. -/
def hasSub (needle : List Char) : List Char → Bool
  | [] => leadsWith needle []
  | c :: r => leadsWith needle (c :: r) || hasSub needle r

/-- Strip ASCII whitespace from both ends, as Python str.strip(). -/
def stripWS (l : List Char) : List Char :=
  ((l.dropWhile isSpaceC).reverse.dropWhile isSpaceC).reverse

/-- Replace every internal whitespace run by a single space; helper for
the re.sub(r"\s+", " ", ...) idiom on an already stripped string. -/
def squeezeGo : List Char → List Char
  | [] => []
  | [c] => if isSpaceC c then [' '] else [c]
  | c :: d :: r =>
    if isSpaceC c then
      (if isSpaceC d then squeezeGo (d :: r) else ' ' :: squeezeGo (d :: r))
    else c :: squeezeGo (d :: r)

/-- The source idiom re.sub(r"\s+", " ", text.strip()): trim, then
collapse each whitespace run to one space. -/
def collapse_ws (l : List Char) : List Char := squeezeGo (stripWS l)

/-- Split on a single character, keeping empty parts, as Python
str.split(sep) for a one-character separator. -/
def splitCharGo (sep : Char) (cur : List Char) : List Char → List (List Char)
  | [] => [cur.reverse]
  | c :: r =>
    if c == sep then cur.reverse :: splitCharGo sep [] r
    else splitCharGo sep (c :: cur) r

/-- Split on a single character, keeping empty parts. -/
def splitChar (sep : Char) (l : List Char) : List (List Char) :=
  splitCharGo sep [] l

/-- Split on the two-character separator ", "; used to destructure the
comma-space field boundaries of the strptime formats below. -/
def splitCSGo (cur : List Char) : List Char → List (List Char)
  | [] => [cur.reverse]
  | ',' :: ' ' :: r => cur.reverse :: splitCSGo [] r
  | c :: r => splitCSGo (c :: cur) r

/-- Split a character list at every occurrence of ", ". -/
def splitCommaSpace (l : List Char) : List (List Char) := splitCSGo [] l

/-- Lexicographic comparison of character lists by code point, the
ordering Python uses for str comparison and sorted(). -/
def leListChar : List Char → List Char → Bool
  | [], _ => true
  | _ :: _, [] => false
  | a :: as, b :: bs => if a == b then leListChar as bs else decide (a < b)

/-- Python string comparison a <= b by code points. -/
def strLe (a b : String) : Bool := leListChar a.data b.data

/-- Python str.endswith(suffix), on the character lists of the strings. -/
def endswith (s suffix : String) : Bool :=
  leadsWith suffix.data.reverse s.data.reverse

/-! ## Calendar dates

Python datetime.date values are embedded as year/month/day triples; the
validity checks of the datetime constructor are the explicit predicate
mkValidDate below. -/

/-- A calendar date as produced by datetime.date: year, month, day. -/
structure Date where
  year : Nat
  month : Nat
  day : Nat
deriving DecidableEq, Repr

/-- Gregorian leap-year rule used by datetime. -/
def isLeap (y : Nat) : Bool := (y % 4 == 0 && y % 100 != 0) || y % 400 == 0

/-- Length of a month in the proleptic Gregorian calendar. -/
def daysInMonth (y m : Nat) : Nat :=
  if m = 2 then (if isLeap y then 29 else 28)
  else if m = 4 ∨ m = 6 ∨ m = 9 ∨ m = 11 then 30
  else 31

/-- The datetime(year, month, day) constructor: some date when the
arguments form a valid calendar date (MINYEAR 1 to MAXYEAR 9999), none
when the constructor would raise ValueError. -/
def mkValidDate (y m d : Nat) : Option Date :=
  if 1 ≤ y ∧ y ≤ 9999 ∧ 1 ≤ m ∧ m ≤ 12 ∧ 1 ≤ d ∧ d ≤ daysInMonth y m then
    some ⟨y, m, d⟩
  else none

/-- Date comparison a ≤ b, as datetime.date ordering. -/
def dateLe (a b : Date) : Bool :=
  decide (a.year < b.year ∨ (a.year = b.year ∧
    (a.month < b.month ∨ (a.month = b.month ∧ a.day ≤ b.day))))

/-- Strict date comparison a < b. -/
def dateLt (a b : Date) : Bool :=
  decide (a.year < b.year ∨ (a.year = b.year ∧
    (a.month < b.month ∨ (a.month = b.month ∧ a.day < b.day))))

/-- The next calendar day, as date + timedelta(days=1) on valid dates. -/
def nextDay (dt : Date) : Date :=
  if dt.day < daysInMonth dt.year dt.month then ⟨dt.year, dt.month, dt.day + 1⟩
  else if dt.month < 12 then ⟨dt.year, dt.month + 1, 1⟩
  else ⟨dt.year + 1, 1, 1⟩

/-- The while current <= end_date loop of parse_multiple_dates: every day
from cur to last inclusive.  The fuel dominates the number of loop
iterations (at most 366 days per calendar year between the bounds), so
the zero-fuel default is unreachable for the initial fuel chosen below. -/
def date_range_go : Nat → Date → Date → List Date
  | 0, _, _ => []
  | fuel + 1, cur, last =>
    if dateLe cur last then cur :: date_range_go fuel (nextDay cur) last else []

/-- Every calendar day from s to e inclusive, ascending. -/
def date_range (s e : Date) : List Date :=
  date_range_go ((e.year + 2 - s.year) * 366) s e

/-- Days before month m in year y (0 for January). -/
def cumMonthDays (y : Nat) : Nat → Nat
  | 0 => 0
  | 1 => 0
  | m + 1 => cumMonthDays y m + daysInMonth y m

/-- Leap years strictly before year y. -/
def leapsBefore (y : Nat) : Nat := (y - 1) / 4 - (y - 1) / 100 + (y - 1) / 400

/-- Day count of a date from the epoch 0001-01-01; differences of toDays
give the timedelta .days values used by the monitoring-window check. -/
def toDays (dt : Date) : Nat :=
  (dt.year - 1) * 365 + leapsBefore dt.year + cumMonthDays dt.year dt.month + dt.day

/-- Python date.isoformat(): zero-padded YYYY-MM-DD. -/
def padZeros (k : Nat) (s : List Char) : List Char :=
  List.replicate (k - s.length) '0' ++ s

/-- ISO rendering of a date, as date.isoformat(). -/
def isoformat (d : Date) : String :=
  String.mk (padZeros 4 (natChars d.year) ++ '-' ::
    (padZeros 2 (natChars d.month) ++ '-' :: padZeros 2 (natChars d.day)))

/-! ## DateParser.parse_date (src/bcf_monitor/parsers.py lines 25-53)

The source tries the strptime patterns "%A, %B %d, %Y", "%B %d, %Y",
"%Y-%m-%d" and "%m/%d/%Y" in order, each inside try/except ValueError, and
finally searches for the loose regex (\d{4})[hyphen or slash](\d{1,2})[hyphen or slash](\d{1,2}) and
feeds the captured numbers to the datetime constructor OUTSIDE any
try/except, so an invalid capture raises out of parse_date.  The strptime
patterns are embedded structurally: on whitespace-collapsed input, the
compiled strptime regex splits the string at the literal ", " and " "
boundaries of the format, %A / %B are full alternations of the weekday and
month names matched case-insensitively, %d matches a 1-2 digit day 1-31,
%m a 1-2 digit month 1-12, %Y exactly four digits, and the final value
check of the datetime constructor is mkValidDate. -/

/-- The twelve month names recognised by strptime %B, with their numbers. -/
def month_names : List (String × Nat) :=
  [("january", 1), ("february", 2), ("march", 3), ("april", 4), ("may", 5),
   ("june", 6), ("july", 7), ("august", 8), ("september", 9), ("october", 10),
   ("november", 11), ("december", 12)]

/-- Case-insensitive full-token month lookup, as strptime("...", "%B"). -/
def month_from_name (mn : List Char) : Option Nat :=
  (month_names.find? (fun p => p.1.data == lowerL mn)).map (fun p => p.2)

/-- The seven weekday names recognised by strptime %A. -/
def weekday_names : List String :=
  ["monday", "tuesday", "wednesday", "thursday", "friday", "saturday", "sunday"]

/-- Case-insensitive full-token weekday test, as strptime %A. -/
def isWeekdayName (l : List Char) : Bool :=
  weekday_names.any (fun w => w.data == lowerL l)

/-- The day field %d of strptime: a 1-2 digit token with value 1-31
(the compiled alternation 3[01]|[12]\d|0[1-9]|[1-9]). -/
def isDayTok (l : List Char) : Bool :=
  decide ((l.length = 1 ∨ l.length = 2) ∧ l.all isDigC ∧
    1 ≤ natOfDigits l ∧ natOfDigits l ≤ 31)

/-- The month field %m of strptime: a 1-2 digit token with value 1-12
(the compiled alternation 1[0-2]|0[1-9]|[1-9]). -/
def isMonthTok (l : List Char) : Bool :=
  decide ((l.length = 1 ∨ l.length = 2) ∧ l.all isDigC ∧
    1 ≤ natOfDigits l ∧ natOfDigits l ≤ 12)

/-- The year field %Y of strptime: exactly four digits. -/
def isDigits4 (l : List Char) : Bool := decide (l.length = 4 ∧ l.all isDigC)

/-- Pattern "%A, %B %d, %Y" (for example "Monday, June 2, 2025"). -/
def try_AdBY (s : List Char) : Option Date :=
  match splitCommaSpace s with
  | [wd, md, ys] =>
    if isWeekdayName wd then
      match splitChar ' ' md with
      | [mn, dn] =>
        match month_from_name mn with
        | some m =>
          if isDayTok dn && isDigits4 ys then
            mkValidDate (natOfDigits ys) m (natOfDigits dn)
          else none
        | none => none
      | _ => none
    else none
  | _ => none

/-- Pattern "%B %d, %Y" (for example "June 2, 2025"). -/
def try_BdY (s : List Char) : Option Date :=
  match splitCommaSpace s with
  | [md, ys] =>
    match splitChar ' ' md with
    | [mn, dn] =>
      match month_from_name mn with
      | some m =>
        if isDayTok dn && isDigits4 ys then
          mkValidDate (natOfDigits ys) m (natOfDigits dn)
        else none
      | none => none
    | _ => none
  | _ => none

/-- Pattern "%Y-%m-%d" (ISO, for example "2025-06-02"). -/
def try_Ymd (s : List Char) : Option Date :=
  match splitChar '-' s with
  | [ys, ms, ds] =>
    if isDigits4 ys && isMonthTok ms && isDayTok ds then
      mkValidDate (natOfDigits ys) (natOfDigits ms) (natOfDigits ds)
    else none
  | _ => none

/-- Pattern "%m/%d/%Y" (for example "6/2/2025"). -/
def try_mdY (s : List Char) : Option Date :=
  match splitChar '/' s with
  | [ms, ds, ys] =>
    if isMonthTok ms && isDayTok ds && isDigits4 ys then
      mkValidDate (natOfDigits ys) (natOfDigits ms) (natOfDigits ds)
    else none
  | _ => none

/-- Four consecutive digits starting here (the \d{4} capture). -/
def take4digits : List Char → Option (Nat × List Char)
  | a :: b :: c :: d :: r =>
    if isDigC a && isDigC b && isDigC c && isDigC d then
      some (natOfDigits [a, b, c, d], r)
    else none
  | _ => none

/-- The separator class of the loose regex: hyphen or slash. -/
def isSepC (c : Char) : Bool := c == '-' || c == '/'

/-- The (\d{1,2}) month capture of the loose regex: greedy two digits,
backtracking to one, and in either case the next character must be a
separator (which is left in the remainder for the caller to consume). -/
def takeMonth12 : List Char → Option (Nat × List Char)
  | a :: b :: c :: r =>
    if isDigC a && isDigC b && isSepC c then
      some (charVal a * 10 + charVal b, c :: r)
    else if isDigC a && isSepC b then some (charVal a, b :: c :: r)
    else none
  | [a, b] => if isDigC a && isSepC b then some (charVal a, [b]) else none
  | _ => none

/-- The final (\d{1,2}) day capture of the loose regex: greedy two digits,
else one, with no trailing requirement. -/
def takeDay12 : List Char → Option Nat
  | a :: b :: _ =>
    if isDigC a && isDigC b then some (charVal a * 10 + charVal b)
    else if isDigC a then some (charVal a)
    else none
  | [a] => if isDigC a then some (charVal a) else none
  | _ => none

/-- One anchored attempt of the loose regex
(\d{4})[hyphen or slash](\d{1,2})[hyphen or slash](\d{1,2}) at the head of the list. -/
def looseAt (l : List Char) : Option (Nat × Nat × Nat) :=
  match take4digits l with
  | none => none
  | some (y, r1) =>
    match r1 with
    | [] => none
    | s :: r2 =>
      if isSepC s then
        match takeMonth12 r2 with
        | none => none
        | some (m, r3) =>
          match r3 with
          | [] => none
          | s2 :: r4 =>
            if isSepC s2 then
              match takeDay12 r4 with
              | none => none
              | some d => some (y, m, d)
            else none
      else none

/-- re.search of the loose regex: leftmost anchored match wins. -/
def looseSearch : List Char → Option (Nat × Nat × Nat)
  | [] => none
  | c :: r =>
    match looseAt (c :: r) with
    | some v => some v
    | none => looseSearch r

/-- Body of DateParser.parse_date on the whitespace-collapsed input: the
four strptime patterns in order (ValueError caught, yielding none), then
the loose regex whose captures reach the datetime constructor with no
try/except, so an invalid capture is the uncaught exception .error (). -/
def parse_date_c (cleaned : List Char) : Except Unit (Option Date) :=
  match try_AdBY cleaned <|> try_BdY cleaned <|> try_Ymd cleaned <|> try_mdY cleaned with
  | some d => .ok (some d)
  | none =>
    match looseSearch cleaned with
    | some (y, m, d) =>
      match mkValidDate y m d with
      | some dt => .ok (some dt)
      | none => .error ()
    | none => .ok none

/-- DateParser.parse_date on a character list: the falsy-text guard, then
the whitespace collapse, then the pattern cascade. -/
def parse_date_l (l : List Char) : Except Unit (Option Date) :=
  if l = [] then .ok none else parse_date_c (collapse_ws l)

/-- DateParser.parse_date (parsers.py lines 25-53). -/
def parse_date (text : String) : Except Unit (Option Date) := parse_date_l text.data

/-! ## DateParser.parse_multiple_dates (parsers.py lines 55-157) -/

/-- First four consecutive digits anywhere in the list, as the lazy
capture .*?(\d{4}) scanning forward from a given point. -/
def find4From : List Char → Option Nat
  | [] => none
  | c :: r =>
    match r with
    | b :: cc :: d :: _ =>
      if isDigC c && isDigC b && isDigC cc && isDigC d then
        some (natOfDigits [c, b, cc, d])
      else find4From r
    | _ => none

/-- re.search(r"([A-Za-z]+).*?(\d{4})", cleaned): the first letter run
that is eventually followed by four consecutive digits; the greedy run is
group 1 (the supposed month name) and the first following four-digit
window, via the lazy gap, is group 2 (the year). -/
def find_month_year : List Char → Option (List Char × Nat)
  | [] => none
  | c :: r =>
    if isLetterC c then
      match find4From ((c :: r).dropWhile isLetterC) with
      | some y => some ((c :: r).takeWhile isLetterC, y)
      | none => find_month_year r
    else find_month_year r

/-- re.sub(r"^[A-Za-z]+,\s*", "", t): drop a leading letter run that is
immediately followed by a comma, together with the comma and any
following whitespace. -/
def strip_weekday (l : List Char) : List Char :=
  let run := l.takeWhile isLetterC
  let rest := l.dropWhile isLetterC
  if 1 ≤ run.length then
    match rest with
    | ',' :: r => r.dropWhile isSpaceC
    | _ => l
  else l

/-- The range branch of parse_multiple_dates (lines 89-117): split on the
hyphen, and when exactly two halves result, strip leading weekdays,
append the year to a half not containing it, prepend the month name to
the second half if absent, parse both halves with parse_date (whose
uncaught exception propagates), and when both parse return every day of
the inclusive range (ok (some days), possibly empty when start exceeds
end).  ok none means the branch did not return and control falls out of
the hyphen conditional. -/
def range_attempt (cleaned : List Char) (month_name : List Char) (year : Nat) :
    Except Unit (Option (List Date)) :=
  match splitChar '-' cleaned with
  | [h1, h2] =>
    let start_text := stripWS h1
    let end_text := stripWS h2
    let start_clean0 := strip_weekday start_text
    let end_clean0 := strip_weekday end_text
    let ystr := natChars year
    let start_clean :=
      if hasSub ystr start_clean0 then start_clean0
      else start_clean0 ++ (',' :: ' ' :: ystr)
    let end_clean1 :=
      if hasSub ystr end_clean0 then end_clean0
      else end_clean0 ++ (',' :: ' ' :: ystr)
    let end_clean :=
      if hasSub (lowerL month_name) (lowerL end_clean1) then end_clean1
      else month_name ++ (' ' :: end_clean1)
    match parse_date_l start_clean with
    | .error e => .error e
    | .ok sd =>
      match parse_date_l end_clean with
      | .error e => .error e
      | .ok ed =>
        match sd, ed with
        | some s, some e2 => .ok (some (date_range s e2))
        | _, _ => .ok none
  | _ => .ok none

/-- The literal characters of the word "and". -/
def andChars : List Char := ['a', 'n', 'd']

/-- re.split(r",\s*and\s*|,\s*", cleaned): scan for commas; after each
comma greedily drop whitespace, absorb a literal "and" plus following
whitespace when present, and start the next part.  The fuel dominates the
number of characters consumed, so the zero-fuel default is unreachable. -/
def split_and_go : Nat → List Char → List Char → List (List Char)
  | 0, cur, _ => [cur.reverse]
  | fuel + 1, cur, l =>
    match l with
    | [] => [cur.reverse]
    | c :: r =>
      if c == ',' then
        let r1 := r.dropWhile isSpaceC
        let r2 := if leadsWith andChars r1 then (r1.drop 3).dropWhile isSpaceC else r1
        cur.reverse :: split_and_go fuel [] r2
      else split_and_go fuel (c :: cur) r

/-- Split on commas absorbing an adjacent "and", per the source regex. -/
def split_and (l : List Char) : List (List Char) :=
  split_and_go (l.length + 1) [] l

/-- re.findall(r"\b(\d{1,2})\b", part): every maximal digit run of length
one or two whose neighbours (when present) are not word characters; the
flag records whether the previous character was a word character.  The
fuel dominates the characters consumed. -/
def scanDaysGo : Nat → Bool → List Char → List Nat
  | 0, _, _ => []
  | fuel + 1, prevWord, l =>
    match l with
    | [] => []
    | c :: r =>
      if isDigC c then
        let run := (c :: r).takeWhile isDigC
        let rest := (c :: r).dropWhile isDigC
        let okTok := (!prevWord) && decide (run.length ≤ 2) &&
          (match rest with | [] => true | d :: _ => !wordC d)
        (if okTok then [natOfDigits run] else []) ++ scanDaysGo fuel true rest
      else scanDaysGo fuel (wordC c) r

/-- All 1-2 digit word-bounded numbers of a fragment, in order. -/
def scanDays (l : List Char) : List Nat := scanDaysGo (l.length + 1) false l

/-- The day_numbers collection of the list branches: every 1-2 digit
number of every part that lies in 1..31 and differs from the year. -/
def daylist_days (parts : List (List Char)) (year : Nat) : List Nat :=
  (parts.map (fun part =>
    (scanDays part).filter (fun d => decide (1 ≤ d ∧ d ≤ 31 ∧ d ≠ year)))).flatten

/-- The dates.append(datetime(year, month_num, day).date()) loop: each day
reaches the datetime constructor with no try/except, so the first invalid
day raises (.error). -/
def days_to_dates (days : List Nat) (year m : Nat) : Except Unit (List Date) :=
  match days with
  | [] => .ok []
  | d :: rest =>
    match mkValidDate year m d with
    | some dt =>
      match days_to_dates rest year m with
      | .ok ds => .ok (dt :: ds)
      | .error e => .error e
    | none => .error ()

/-- Insertion step for sorting dates ascending. -/
def insertDate (d : Date) : List Date → List Date
  | [] => [d]
  | e :: es => if dateLe d e then d :: e :: es else e :: insertDate d es

/-- Python sorted() on a list of dates. -/
def sortDates : List Date → List Date
  | [] => []
  | d :: ds => insertDate d (sortDates ds)

/-- The final fallback of parse_multiple_dates (lines 155-157): a single
parse_date on the cleaned text, wrapped in a 0-or-1 element list; the
uncaught exception of parse_date propagates. -/
def single_fallback (cleaned : List Char) : Except Unit (List Date) :=
  match parse_date_l cleaned with
  | .error e => .error e
  | .ok (some d) => .ok [d]
  | .ok none => .ok []

/-- The elif chain below the hyphen branch (lines 119-157): the "and"
branch, else the comma branch, else the single-date fallback.  A list
branch whose collected dates are empty falls through to the single-date
fallback, not to the next branch. -/
def and_comma_single (cleaned : List Char) (year m : Nat) : Except Unit (List Date) :=
  if hasSub andChars cleaned then
    match days_to_dates (daylist_days (split_and cleaned) year) year m with
    | .error e => .error e
    | .ok [] => single_fallback cleaned
    | .ok ds => .ok (sortDates ds)
  else if cleaned.contains ',' then
    match days_to_dates (daylist_days (splitChar ',' cleaned) year) year m with
    | .error e => .error e
    | .ok [] => single_fallback cleaned
    | .ok ds => .ok (sortDates ds)
  else single_fallback cleaned

/-- DateParser.parse_multiple_dates (parsers.py lines 55-157): the falsy
guard, the whitespace collapse, the month/year pre-extraction with its
two single-date fallbacks, then the hyphen branch (whose failure falls
through only to the final single-date fallback, the elif branches being
skipped), else the and/comma/single chain. -/
def parse_multiple_dates (text : String) : Except Unit (List Date) :=
  if text = "" then .ok []
  else
    let cleaned := collapse_ws text.data
    match find_month_year cleaned with
    | none => single_fallback cleaned
    | some (month_name, year) =>
      match month_from_name month_name with
      | none => single_fallback cleaned
      | some month_num =>
        if cleaned.contains '-' then
          match range_attempt cleaned month_name year with
          | .error e => .error e
          | .ok (some ds) => .ok ds
          | .ok none => single_fallback cleaned
        else and_comma_single cleaned year month_num

/-! ## Participants and rosters (parsers.py lines 389-524, monitor.py) -/

/-- A participant record as built by EntryListParser: name plus optional
rating, USCF id, section and byes fields (the source key "section" is the
field sectionVal here, "section" being reserved in Lean). -/
structure Participant where
  name : String
  rating : Option String := none
  uscf_id : Option String := none
  sectionVal : Option String := none
  byes : Option String := none
deriving DecidableEq, Repr

/-- An element of a stored participant list as read back from a snapshot:
_diff_lists accepts both dict-shaped records and plain strings
(the isinstance(p, dict) branches of monitor.py lines 174-206). -/
inductive PEntry where
  | dict (p : Participant)
  | str (s : String)
deriving DecidableEq, Repr

/-- The name used for comparison: p["name"] for a dict, p itself for a
plain string. -/
def PEntry.getName : PEntry → String
  | .dict p => p.name
  | .str s => s

/-- The normalize_name helper of EntryListParser._normalize_and_deduplicate
(parsers.py lines 509-510): re.sub(r"\s+", " ", name.strip()). -/
def normalize_name (s : String) : String := String.mk (collapse_ws s.data)

/-- The deduplication loop of _normalize_and_deduplicate: keep the first
record for each already-normalized name, the seen set being the list of
names kept so far. -/
def dedup_participants : List Participant → List String → List Participant
  | [], _ => []
  | p :: rest, seen =>
    if seen.contains p.name then dedup_participants rest seen
    else p :: dedup_participants rest (seen ++ [p.name])

/-- EntryListParser._normalize_and_deduplicate (parsers.py lines 507-524):
normalize every name, then drop later records whose normalized name
repeats an earlier one. -/
def normalize_and_deduplicate (ps : List Participant) : List Participant :=
  dedup_participants (ps.map (fun p => { p with name := normalize_name p.name })) []

/-- Insertion step for sorting strings ascending by code point. -/
def insertStr (s : String) : List String → List String
  | [] => [s]
  | t :: ts => if strLe s t then s :: t :: ts else t :: insertStr s ts

/-- Python sorted() on a list of strings. -/
def sortStrs (l : List String) : List String := l.foldr insertStr []

/-- BCFMonitor._diff_lists (monitor.py lines 160-207): collect the name
sets of both lists, sort the set differences (Python set subtraction and
sorted(); duplicates in the collected name lists do not change the
membership tests below), then map the difference names back to the full
records by filtering each input list in its original order. -/
def diff_lists (old_list new_list : List PEntry) : List PEntry × List PEntry :=
  let old_names := old_list.map PEntry.getName
  let new_names := new_list.map PEntry.getName
  let added_names := sortStrs (new_names.filter (fun n => !(old_names.contains n)))
  let removed_names := sortStrs (old_names.filter (fun n => !(new_names.contains n)))
  let added := new_list.filter (fun p => added_names.contains (PEntry.getName p))
  let removed := old_list.filter (fun p => removed_names.contains (PEntry.getName p))
  (added, removed)

/-! ## Filtering rules and the monitoring window (monitor.py lines 46-120) -/

/-- The include/exclude keyword lists prepared by _setup_filtering_rules;
the keywords are already lowercased there. -/
structure Rules where
  include_keywords : List String
  exclude_keywords : List String
deriving Repr

/-- BCFMonitor._match_rules (monitor.py lines 54-73): lowercase the name;
a non-empty include list with no hit rejects; an exclude hit rejects. -/
def match_rules (r : Rules) (name : String) : Bool :=
  let lower_name := lowerL name.data
  if !r.include_keywords.isEmpty &&
      !(r.include_keywords.any (fun k => hasSub k.data lower_name)) then false
  else if !r.exclude_keywords.isEmpty &&
      (r.exclude_keywords.any (fun k => hasSub k.data lower_name)) then false
  else true

/-- datetime.strptime(date_str, "%Y-%m-%d").date() as used on the stored
ISO date strings; failures (caught by the source loops) are none. -/
def parse_ymd (s : String) : Option Date := try_Ymd s.data

/-- BCFMonitor._within_days (monitor.py lines 75-97): some stored date
parses and lies in the window [today, today + days_before]. -/
def within_days (event_dates : List String) (days_before : Nat) (today : Date) : Bool :=
  if event_dates.isEmpty then false
  else event_dates.any (fun s =>
    match parse_ymd s with
    | some d => dateLe today d && decide (toDays d - toDays today ≤ days_before)
    | none => false)

/-- BCFMonitor._expired (monitor.py lines 99-120): an empty date list is
expired; otherwise every stored string that parses must be strictly
before today (unparseable strings are skipped by the except/continue). -/
def expired (event_dates : List String) (today : Date) : Bool :=
  if event_dates.isEmpty then true
  else event_dates.all (fun s =>
    match parse_ymd s with
    | some d => !(dateLe today d)
    | none => true)

/-! ## The expiry sweep (monitor.py lines 122-138 and 209-228) -/

/-- The loadable content of one stored file, as seen by the sweep: the
event_dates list of the decoded snapshot (snapshot.get("event_dates", [])).
A file whose content is missing on read, fails json decoding, or decodes
to a falsy value — the cases giving _load_snapshot none or failing the
`if not snapshot` guard — is modelled as content none. -/
structure SnapLoaded where
  event_dates : List String
deriving DecidableEq, Repr

/-- One directory entry of the data dir during the sweep. -/
structure StoredFile where
  fname : String
  content : Option SnapLoaded
deriving DecidableEq, Repr

/-- The per-file decision of BCFMonitor._cleanup_expired: true when the
file survives the sweep.  Non-.json names are never touched; unloadable
or falsy content is skipped by the continue; a loadable snapshot is
removed exactly when _expired holds of its dates. -/
def keptSweep (today : Date) (f : StoredFile) : Bool :=
  if !(endswith f.fname ".json") then true
  else
    match f.content with
    | none => true
    | some s => !(expired s.event_dates today)

/-- BCFMonitor._cleanup_expired (monitor.py lines 209-228) over a
directory listing: the files remaining after the sweep. -/
def cleanup_expired (today : Date) (files : List StoredFile) : List StoredFile :=
  files.filter (keptSweep today)

/-! ## Snapshot persistence (monitor.py lines 140-158)

The file system is modelled as an association list from paths to file
contents; os.replace is the atomic primitive.  _save_snapshot serialises
the snapshot (the serialised text is the content argument below), writes
it to path + ".tmp" and atomically replaces the target.  The outcome
parameter selects the exception point: ok (no exception), a failure
mid-write of the temporary file (which then holds some written part of
the new text), or a failure of the replace call itself; the source
catches the exception and logs it, leaving the file system as at the
failure point. -/

/-- File system state: path to content. -/
def FSL := List (String × String)

/-- Content at a path, none when the file does not exist. -/
def fsGet (fs : FSL) (p : String) : Option String :=
  (List.find? (fun e => e.1 == p) fs).map (fun e => e.2)

/-- Write the full content of one path. -/
def fsSet (fs : FSL) (p v : String) : FSL :=
  (p, v) :: List.filter (fun e => !(e.1 == p)) fs

/-- Remove one path. -/
def fsDel (fs : FSL) (p : String) : FSL :=
  List.filter (fun e => !(e.1 == p)) fs

/-- Where the write can stop: run to completion, raise during the
temporary-file write after some written part of the text, or raise at the
replace call with the temporary file complete. -/
inductive SaveOutcome where
  | ok
  | failDuringWrite (written : String)
  | failAtReplace

/-- The temporary path used by _save_snapshot. -/
def tmpPath (p : String) : String := p ++ ".tmp"

/-- Final file-system state of BCFMonitor._save_snapshot: write the
serialised content to the temporary path, then os.replace it over the
target; on an exception the state is frozen at the failure point (the
except branch only logs). -/
def save_snapshot (fs : FSL) (path content : String) : SaveOutcome → FSL
  | .ok => fsDel (fsSet (fsSet fs (tmpPath path) content) path content) (tmpPath path)
  | .failDuringWrite written => fsSet fs (tmpPath path) written
  | .failAtReplace => fsSet fs (tmpPath path) content

/-- Every intermediate file-system state of the save, in order: the
initial state, the state after the temporary-file write (partial on a
mid-write failure), and for the successful outcome the state after the
atomic replace. -/
def save_snapshot_states (fs : FSL) (path content : String) : SaveOutcome → List FSL
  | .ok => [fs, fsSet fs (tmpPath path) content,
      fsDel (fsSet (fsSet fs (tmpPath path) content) path content) (tmpPath path)]
  | .failDuringWrite written => [fs, fsSet fs (tmpPath path) written]
  | .failAtReplace => [fs, fsSet fs (tmpPath path) content]

/-! ## Event processing (monitor.py lines 245-342)

_process_event drives per-event fetching, naming, filtering and
reconciliation.  The network fetch plus HTML parse of the detail page and
of the entry-list page are external effects at the interface boundary;
they are supplied as the FetchEnv oracle: detail is the parsed detail
dictionary (or the caught exception) consulted when the event carries a
detail URL, entry is the parsed entry list with the page-title name (or
the exception of the fetch/parse), and prior is the participants list of
the previously persisted snapshot (none when the snapshot is absent or
unreadable, which the source turns into the empty list).  The embedding
returns the produced report, whether the entry-list document was fetched
(the source performs this fetch unconditionally, before any filtering),
and the snapshot written, so that control-flow claims are statable. -/

/-- An event record from parse_events_page, as consumed by
_process_event. -/
structure EventRec where
  event_id : String
  name : String
  dates : List String
  event_detail_url : Option String
  entry_list_url : String
deriving Repr

/-- The external fetch/parse results for one event. -/
structure FetchEnv where
  detail : Except Unit (List (String × String))
  entry : Except Unit (List Participant × Option String)
  prior : Option (List PEntry)

/-- The report dictionary returned for one processed event. -/
structure Report where
  name : String
  dates : List String
  detail_url : Option String
  entry_url : String
  count : Nat
  added : List PEntry
  removed : List PEntry
deriving Repr

/-- The snapshot dictionary written by the successful path (the
last_checked wall-clock field is outside the embedding). -/
structure SnapWritten where
  event_id : String
  event_name : String
  event_dates : List String
  participants : List Participant
  count : Nat
deriving Repr

/-- The outcome of _process_event: the report (none when the event is
skipped), whether the entry-list fetch was attempted, and the snapshot
written. -/
structure ProcOut where
  report : Option Report
  entryFetched : Bool
  savedSnapshot : Option SnapWritten
deriving Repr

/-- Python dict lookup details.get(key). -/
def dlookup (k : String) (d : List (String × String)) : Option String :=
  (List.find? (fun e => e.1 == k) d).map (fun e => e.2)

/-- The generic-name stoplist of the two name-improvement conditionals
(monitor.py lines 265 and 286). -/
def name_stoplist : List String := ["upcoming events", "events", "tournaments"]

/-- The name-improvement conditional: a truthy candidate whose lowercase
form is not in the stoplist replaces the current name. -/
def update_name (current : String) (candidate : Option String) : String :=
  match candidate with
  | some v =>
    if v ≠ "" ∧ ¬ name_stoplist.contains (String.mk (lowerL v.data)) then v
    else current
  | none => current

/-- The date-recovery loop over the detail keys (monitor.py lines 270-275):
the first present, truthy key whose parse_multiple_dates result is
non-empty supplies the ISO dates; an exception of the parser propagates
(to be caught by the warn handler around the detail phase). -/
def date_from_keys : List String → List (String × String) →
    Except Unit (Option (List String))
  | [], _ => .ok none
  | k :: ks, details =>
    match dlookup k details with
    | some v =>
      if v ≠ "" then
        match parse_multiple_dates v with
        | .error e => .error e
        | .ok [] => date_from_keys ks details
        | .ok ds => .ok (some (ds.map isoformat))
      else date_from_keys ks details
    | none => date_from_keys ks details

/-- The detail-page phase of _process_event (monitor.py lines 256-277):
when a detail URL exists and its fetch/parse succeeds, the name may be
improved and, if the event has no dates yet, the detail dictionary may
supply them; an exception inside the phase (including one raised by the
date parser) is caught by the warn handler, keeping the name already
assigned and the original dates. -/
def detail_phase (ev : EventRec) (env : FetchEnv) : String × List String :=
  match ev.event_detail_url with
  | none => (ev.name, ev.dates)
  | some _ =>
    match env.detail with
    | .error _ => (ev.name, ev.dates)
    | .ok details =>
      let n := update_name ev.name (dlookup "event_name" details)
      match (if ev.dates.isEmpty then
          date_from_keys ["date", "event date", "tournament date"] details
        else .ok none) with
      | .error _ => (n, ev.dates)
      | .ok (some ds) => (n, ds)
      | .ok none => (n, ev.dates)

/-- The name _process_event has established when the admission filter
runs: the detail-phase name, further improved by the entry-list page
title when that fetch succeeded. -/
def best_name (ev : EventRec) (env : FetchEnv) : String :=
  match env.entry with
  | .error _ => (detail_phase ev env).1
  | .ok (_, entry_event_name) => update_name (detail_phase ev env).1 entry_event_name

/-- BCFMonitor._process_event (monitor.py lines 245-342): detail phase,
unconditional entry-list fetch (a failure skips the event), name
improvement from the entry-list title, then the include/exclude filter,
the monitoring-window filter and the empty-roster check, and finally the
diff against the prior snapshot and the snapshot write. -/
def process_event (r : Rules) (days_before : Nat) (today : Date) (ev : EventRec)
    (env : FetchEnv) : ProcOut :=
  let nd := detail_phase ev env
  match env.entry with
  | .error _ => ⟨none, true, none⟩
  | .ok (participants, entry_event_name) =>
    let name2 := update_name nd.1 entry_event_name
    if !(match_rules r name2) then ⟨none, true, none⟩
    else if !(within_days nd.2 days_before today) then ⟨none, true, none⟩
    else if participants.isEmpty then ⟨none, true, none⟩
    else
      let prev := env.prior.getD []
      let dr := diff_lists prev (participants.map PEntry.dict)
      ⟨some ⟨name2, nd.2, ev.event_detail_url, ev.entry_list_url,
          participants.length, dr.1, dr.2⟩,
       true,
       some ⟨ev.event_id, name2, nd.2, participants, participants.length⟩⟩

/-- Is a participant list sorted ascending by normalized name. -/
def namesSortedAsc : List PEntry → Bool
  | [] => true
  | [_] => true
  | p :: q :: r =>
    strLe (normalize_name (PEntry.getName p)) (normalize_name (PEntry.getName q)) &&
    namesSortedAsc (q :: r)

/-! ## Theorems -/

/-- C1: for the input "Monday, June 2 - Friday, June 6, 2025" the code
returns the empty list, not the five dates June 2-6 of 2025 the claim
requires: the month/year pre-extraction regex captures the weekday
"Monday" as the month name, strptime("%B") rejects it, and the
single-date fallback cannot parse the range text, so the range branch
(whose weekday stripping exists precisely for such inputs) is never
reached. -/
theorem C1_weekday_range_returns_empty :
    parse_multiple_dates "Monday, June 2 - Friday, June 6, 2025" = .ok [] := by
  rfl

/-- C4: parse_date raises on the malformed input "2025-13-45" instead of
returning none: the strptime patterns all fail, the loose regex captures
year 2025, month 13, day 45, and the datetime constructor raises
ValueError outside any try/except. -/
theorem C4_parse_date_raises_on_loose_match :
    parse_date "2025-13-45" = .error () := by
  rfl

/-- C9: for "June 3, 10, and 17, 2025" parse_multiple_dates returns
exactly June 3, June 10, June 17 of 2025, ascending (and, these being
distinct, deduplicated), as the claim states. -/
theorem C9_and_list_dates :
    parse_multiple_dates "June 3, 10, and 17, 2025" =
      .ok [⟨2025, 6, 3⟩, ⟨2025, 6, 10⟩, ⟨2025, 6, 17⟩] := by
  rfl

/-- C2 counterexample: an event named "Scholastic Open" under the exclude
list ["scholastic"] does have its roster document fetched — _process_event
performs the entry-list fetch unconditionally, before any filtering — so
the claim that such an event is never advanced to roster fetch is false
(the event still produces no report and no snapshot). -/
theorem C2_roster_fetched_despite_exclusion :
    (process_event ⟨[], ["scholastic"]⟩ 7 ⟨2025, 6, 10⟩
      ⟨"123", "Scholastic Open", ["2025-06-12"], none,
        "https://boylstonchess.org/tournament/entries/123"⟩
      ⟨.ok [], .ok ([⟨"Kid A", none, none, none, none⟩], none), none⟩).entryFetched
      = true := by
  rfl

/-- C3 counterexample: diffing an empty prior roster against the current
roster [Bob, Alice] returns the additions in the current order Bob, Alice,
which is not sorted ascending by normalized name, so the sortedness part of
the claim is false (the claimed contents — everything added, nothing
removed — do hold here). -/
theorem C3_added_not_sorted :
    diff_lists []
        [.dict ⟨"Bob", none, none, none, none⟩, .dict ⟨"Alice", none, none, none, none⟩]
      = ([.dict ⟨"Bob", none, none, none, none⟩, .dict ⟨"Alice", none, none, none, none⟩], [])
    ∧ namesSortedAsc
        [.dict ⟨"Bob", none, none, none, none⟩, .dict ⟨"Alice", none, none, none, none⟩]
      = false := by
  exact ⟨rfl, rfl⟩

/-- C5 counterexample: the diff engine compares names exactly, so the two
whitespace variants of the same name diff as one addition plus one
removal rather than as the same participant; the claim that the diff
engine identifies them is false. -/
theorem C5_diff_distinguishes_ws_variants :
    diff_lists [.dict ⟨"John  Smith", none, none, none, none⟩]
        [.dict ⟨"John Smith", none, none, none, none⟩]
      = ([.dict ⟨"John Smith", none, none, none, none⟩],
         [.dict ⟨"John  Smith", none, none, none, none⟩]) := by
  rfl

/-- C6 counterexample: for "June 3, 10, and 17, 2025 - foo" the text
contains a hyphen and the range attempt fails, but evaluation does not
fall through to the remaining list rules applied to the original text —
the and-rule on the original text would produce June 3, 10, 17 of 2025,
while parse_multiple_dates returns the empty list (only the final
single-date fallback runs, the elif branches being skipped). -/
theorem C6_hyphen_skips_list_rules :
    parse_multiple_dates "June 3, 10, and 17, 2025 - foo" = .ok []
    ∧ and_comma_single (collapse_ws "June 3, 10, and 17, 2025 - foo".data) 2025 6
        = .ok [⟨2025, 6, 3⟩, ⟨2025, 6, 10⟩, ⟨2025, 6, 17⟩]
    ∧ parse_multiple_dates "June 3, 10, and 17, 2025 - foo"
        ≠ and_comma_single (collapse_ws "June 3, 10, and 17, 2025 - foo".data) 2025 6 := by
  refine ⟨rfl, rfl, ?_⟩
  intro h
  rw [show parse_multiple_dates "June 3, 10, and 17, 2025 - foo"
        = (.ok [] : Except Unit (List Date)) from rfl,
      show and_comma_single (collapse_ws "June 3, 10, and 17, 2025 - foo".data) 2025 6
        = (.ok [⟨2025, 6, 3⟩, ⟨2025, 6, 10⟩, ⟨2025, 6, 17⟩] : Except Unit (List Date))
        from rfl] at h
  exact List.noConfusion (Except.ok.inj h)

/-- Membership under the insertion step of string sorting. -/
theorem mem_insertStr (a s : String) (l : List String) :
    a ∈ insertStr s l ↔ (a = s ∨ a ∈ l) := by
  induction l with
  | nil => simp [insertStr]
  | cons t ts ih =>
    unfold insertStr
    by_cases h : strLe s t = true
    · rw [if_pos h]
      simp [List.mem_cons]
    · rw [if_neg h]
      simp only [List.mem_cons, ih]
      tauto

/-- Sorting a string list does not change membership. -/
theorem mem_sortStrs (a : String) (l : List String) :
    a ∈ sortStrs l ↔ a ∈ l := by
  induction l with
  | nil => exact Iff.rfl
  | cons s ts ih =>
    show a ∈ insertStr s (sortStrs ts) ↔ _
    rw [mem_insertStr, ih]
    simp

/-- C3 amended: diffing an empty prior roster returns every current
participant as added, in the current list's original order (not sorted by
name), and nothing removed. -/
theorem C3_empty_prior_diff (cur : List PEntry) :
    diff_lists [] cur = (cur, []) := by
  unfold diff_lists
  simp only [List.map_nil, List.filter_nil]
  have h1 : List.filter (fun n => !(List.contains ([] : List String) n))
      (cur.map PEntry.getName) = cur.map PEntry.getName := by
    apply List.filter_eq_self.mpr
    intro a _
    rfl
  rw [h1]
  have h2 : List.filter
      (fun p => (sortStrs (cur.map PEntry.getName)).contains (PEntry.getName p)) cur = cur := by
    apply List.filter_eq_self.mpr
    intro p hp
    exact List.elem_eq_true_of_mem
      ((mem_sortStrs _ _).mpr (List.mem_map_of_mem PEntry.getName hp))
  rw [h2]

/-- C5 amended: two participant records whose names agree after
whitespace normalization are identified by the extractor's deduplication,
which keeps only the first record; the diff engine compares names exactly,
so it identifies the two variants only on rosters that have already been
normalized, as the extractor produces them — diffing the normalized
singleton rosters reports no addition and no removal. -/
theorem C5_normalized_identity (p q : Participant)
    (h : normalize_name p.name = normalize_name q.name) :
    normalize_and_deduplicate [p, q] = [{ p with name := normalize_name p.name }]
    ∧ diff_lists ((normalize_and_deduplicate [p]).map PEntry.dict)
        ((normalize_and_deduplicate [q]).map PEntry.dict) = ([], []) := by
  constructor
  · simp [normalize_and_deduplicate, dedup_participants, h]
  · simp [normalize_and_deduplicate, dedup_participants, diff_lists,
      sortStrs, insertStr, PEntry.getName, h]

/-- C5 witness: the whitespace variants "John  Smith" and "John Smith". -/
theorem C5_normalized_identity_witness :
    normalize_and_deduplicate
        [⟨"John  Smith", none, none, none, none⟩, ⟨"John Smith", none, none, none, none⟩]
      = [⟨"John Smith", none, none, none, none⟩]
    ∧ diff_lists
        ((normalize_and_deduplicate [⟨"John  Smith", none, none, none, none⟩]).map PEntry.dict)
        ((normalize_and_deduplicate [⟨"John Smith", none, none, none, none⟩]).map PEntry.dict)
      = ([], []) :=
  C5_normalized_identity
    ⟨"John  Smith", none, none, none, none⟩ ⟨"John Smith", none, none, none, none⟩ (by rfl)

/-- C2 amended: an event whose best available name — the name established
from the listing, the detail page and the entry-list page title, in that
precedence — fails the include/exclude rules produces no report and no
snapshot write, regardless of its dates; its roster document is still
fetched first, because the filter runs only after the name has been
improved from the roster page title. -/
theorem C2_excluded_event_yields_no_report (r : Rules) (db : Nat) (today : Date)
    (ev : EventRec) (env : FetchEnv)
    (h : match_rules r (best_name ev env) = false) :
    (process_event r db today ev env).report = none
    ∧ (process_event r db today ev env).savedSnapshot = none := by
  unfold process_event
  unfold best_name at h
  rcases henv : env.entry with e | ⟨ps, en⟩
  · exact ⟨rfl, rfl⟩
  · rw [henv] at h
    have h2 : match_rules r (update_name (detail_phase ev env).1 en) = false := h
    refine ⟨?_, ?_⟩ <;> simp [h2]

/-- C2 witness: the "Scholastic Open" event under exclude list
["scholastic"]. -/
theorem C2_excluded_witness :
    (process_event ⟨[], ["scholastic"]⟩ 7 ⟨2025, 6, 10⟩
        ⟨"123", "Scholastic Open", ["2025-06-12"], none,
          "https://boylstonchess.org/tournament/entries/123"⟩
        ⟨.ok [], .ok ([⟨"Kid A", none, none, none, none⟩], none), none⟩).report = none
    ∧ (process_event ⟨[], ["scholastic"]⟩ 7 ⟨2025, 6, 10⟩
        ⟨"123", "Scholastic Open", ["2025-06-12"], none,
          "https://boylstonchess.org/tournament/entries/123"⟩
        ⟨.ok [], .ok ([⟨"Kid A", none, none, none, none⟩], none), none⟩).savedSnapshot = none :=
  C2_excluded_event_yields_no_report ⟨[], ["scholastic"]⟩ 7 ⟨2025, 6, 10⟩
    ⟨"123", "Scholastic Open", ["2025-06-12"], none,
      "https://boylstonchess.org/tournament/entries/123"⟩
    ⟨.ok [], .ok ([⟨"Kid A", none, none, none, none⟩], none), none⟩ (by rfl)

/-- C6 amended: when the cleaned text contains a hyphen and the range
attempt does not return (wrong part count or an unparseable half),
evaluation falls through only to the final single-date fallback on the
cleaned text — the "and"-list and comma-list rules are skipped, being
elif branches of the hyphen conditional. -/
theorem C6_hyphen_falls_to_single (text : String) (mn : List Char) (y m : Nat)
    (hne : text ≠ "")
    (hfind : find_month_year (collapse_ws text.data) = some (mn, y))
    (hmonth : month_from_name mn = some m)
    (hdash : (collapse_ws text.data).contains '-' = true)
    (hrange : range_attempt (collapse_ws text.data) mn y = .ok none) :
    parse_multiple_dates text = single_fallback (collapse_ws text.data) := by
  unfold parse_multiple_dates
  rw [if_neg hne]
  simp only [hfind, hmonth, hdash, if_true, hrange]

/-- C6 witness: the input "June 3, 10, and 17, 2025 - foo" contains a
hyphen, its range attempt fails, and the result is the single-date
fallback on the cleaned text. -/
theorem C6_hyphen_falls_to_single_witness :
    parse_multiple_dates "June 3, 10, and 17, 2025 - foo"
      = single_fallback (collapse_ws "June 3, 10, and 17, 2025 - foo".data) :=
  C6_hyphen_falls_to_single "June 3, 10, and 17, 2025 - foo"
    "June".data 2025 6 (by decide) (by rfl) (by rfl) (by rfl) (by rfl)

/-- The target path differs from its temporary path. -/
theorem path_ne_tmpPath (p : String) : ¬ (tmpPath p == p) = true := by
  intro h
  have h2 : tmpPath p = p := by
    simpa using h
  have h3 : (tmpPath p).length = p.length := by rw [h2]
  rw [tmpPath, String.length_append, show (".tmp" : String).length = 4 from rfl] at h3
  omega

/-- Writing one path leaves the content of another path unchanged. -/
theorem fsGet_fsSet_ne (fs : FSL) (q p v : String) (h : ¬ (q == p) = true) :
    fsGet (fsSet fs q v) p = fsGet fs p := by
  show fsGet ((q, v) :: List.filter (fun e => !(e.1 == q)) fs) p = fsGet fs p
  unfold fsGet
  rw [List.find?]
  simp only [h, Bool.false_eq_true, if_false]
  induction fs with
  | nil => rfl
  | cons e rest ih =>
    by_cases he : (e.1 == q) = true
    · have hep : ¬ (e.1 == p) = true := by
        intro hp
        apply h
        have h1 : e.1 = q := by simpa using he
        have h2 : e.1 = p := by simpa using hp
        simp [← h1, ← h2]
      simp only [List.filter, he, Bool.not_true, List.find?, hep,
        Bool.false_eq_true, if_false] at ih ⊢
      exact ih
    · simp only [List.filter, he, Bool.not_false, List.find?] at ih ⊢
      by_cases hep : (e.1 == p) = true
      · simp [hep]
      · simp only [hep, Bool.false_eq_true, if_false] at ih ⊢
        exact ih

/-- Deleting one path leaves the content of another path unchanged. -/
theorem fsGet_fsDel_ne (fs : FSL) (q p : String) (h : ¬ (q == p) = true) :
    fsGet (fsDel fs q) p = fsGet fs p := by
  unfold fsGet fsDel
  induction fs with
  | nil => rfl
  | cons e rest ih =>
    by_cases he : (e.1 == q) = true
    · have hep : ¬ (e.1 == p) = true := by
        intro hp
        apply h
        have h1 : e.1 = q := by simpa using he
        have h2 : e.1 = p := by simpa using hp
        simp [← h1, ← h2]
      simp only [List.filter, he, Bool.not_true, List.find?, hep,
        Bool.false_eq_true, if_false] at ih ⊢
      exact ih
    · simp only [List.filter, he, Bool.not_false, List.find?] at ih ⊢
      by_cases hep : (e.1 == p) = true
      · simp [hep]
      · simp only [hep, Bool.false_eq_true, if_false] at ih ⊢
        exact ih

/-- Writing a path makes its content that value. -/
theorem fsGet_fsSet_self (fs : FSL) (p v : String) :
    fsGet (fsSet fs p v) p = some v := by
  unfold fsGet fsSet
  rw [List.find?]
  simp

/-- C7: the snapshot write is atomic with respect to the target path.  In
every intermediate state of the save the target holds either the old
content or the complete new content (never a partial write, which touches
only the temporary path); a run to completion replaces the target by the
full new content whatever was there before; and either failure outcome
leaves the target exactly as it was. -/
theorem C7_snapshot_save_atomic (fs : FSL) (path content : String) :
    (∀ o : SaveOutcome, ∀ s ∈ save_snapshot_states fs path content o,
        fsGet s path = fsGet fs path ∨ fsGet s path = some content)
    ∧ fsGet (save_snapshot fs path content .ok) path = some content
    ∧ (∀ written, fsGet (save_snapshot fs path content (.failDuringWrite written)) path
        = fsGet fs path)
    ∧ fsGet (save_snapshot fs path content .failAtReplace) path = fsGet fs path := by
  have htmp : ∀ v, fsGet (fsSet fs (tmpPath path) v) path = fsGet fs path :=
    fun v => fsGet_fsSet_ne fs (tmpPath path) path v (path_ne_tmpPath path)
  have hok : fsGet (save_snapshot fs path content .ok) path = some content := by
    show fsGet (fsDel (fsSet (fsSet fs (tmpPath path) content) path content)
      (tmpPath path)) path = some content
    rw [fsGet_fsDel_ne _ _ _ (path_ne_tmpPath path), fsGet_fsSet_self]
  refine ⟨?_, hok, fun written => htmp written, htmp content⟩
  intro o s hs
  cases o with
  | ok =>
    simp only [save_snapshot_states, List.mem_cons, List.not_mem_nil, or_false] at hs
    rcases hs with h | h | h
    · exact Or.inl (by rw [h])
    · exact Or.inl (by rw [h]; exact htmp content)
    · exact Or.inr (by rw [h]; exact hok)
  | failDuringWrite written =>
    simp only [save_snapshot_states, List.mem_cons, List.not_mem_nil, or_false] at hs
    rcases hs with h | h
    · exact Or.inl (by rw [h])
    · exact Or.inl (by rw [h]; exact htmp written)
  | failAtReplace =>
    simp only [save_snapshot_states, List.mem_cons, List.not_mem_nil, or_false] at hs
    rcases hs with h | h
    · exact Or.inl (by rw [h])
    · exact Or.inl (by rw [h]; exact htmp content)

/-- C7 witness: saving over an existing snapshot, the successful run
shows the new content and a mid-write failure leaves the old content. -/
theorem C7_snapshot_save_atomic_witness :
    fsGet (save_snapshot [("data/5.json", "old")] "data/5.json" "new" .ok) "data/5.json"
      = some "new"
    ∧ fsGet (save_snapshot [("data/5.json", "old")] "data/5.json" "new"
        (.failDuringWrite "ne")) "data/5.json" = some "old" :=
  ⟨(C7_snapshot_save_atomic [("data/5.json", "old")] "data/5.json" "new").2.1,
   ((C7_snapshot_save_atomic [("data/5.json", "old")] "data/5.json" "new").2.2.1 "ne").trans
     (by rfl)⟩

/-- Strict date order is the negation of the reverse weak order. -/
theorem dateLt_iff (a b : Date) : dateLt a b = true ↔ dateLe b a = false := by
  unfold dateLt dateLe
  simp only [decide_eq_true_eq, decide_eq_false_iff_not]
  omega

/-- The emptiness guard of _expired agrees with the all-quantified form. -/
theorem expired_eq_all (strs : List String) (today : Date) :
    expired strs today = strs.all (fun s =>
      match parse_ymd s with
      | some d => !(dateLe today d)
      | none => true) := by
  cases strs <;> rfl

/-- When every stored string parses, _expired holds exactly when every
parsed date is not on or after today. -/
theorem expired_iff (today : Date) :
    ∀ (strs : List String) (ds : List Date), strs.map parse_ymd = ds.map some →
      (expired strs today = true ↔ ∀ d ∈ ds, dateLe today d = false) := by
  intro strs
  induction strs with
  | nil =>
    intro ds h
    have hds : ds = [] := by
      cases ds with
      | nil => rfl
      | cons d ds2 => simp at h
    subst hds
    simp [expired]
  | cons s rest ih =>
    intro ds h
    cases ds with
    | nil => simp at h
    | cons d ds2 =>
      simp only [List.map_cons, List.cons.injEq] at h
      obtain ⟨h1, h2⟩ := h
      rw [expired_eq_all, List.all_cons, ← expired_eq_all, h1, Bool.and_eq_true,
        ih ds2 h2]
      simp [List.forall_mem_cons]

/-- C8: over a stored .json file whose snapshot loads, with its date
strings parsing to the given calendar dates, the expiry sweep deletes the
file exactly when it is expired — no known dates at all, or every known
date strictly before today — and retains it when some date is on or after
today. -/
theorem C8_sweep_deletes_iff_expired (today : Date) (nm : String) (strs : List String)
    (ds : List Date)
    (hjson : endswith nm ".json" = true)
    (hparse : strs.map parse_ymd = ds.map some) :
    cleanup_expired today [⟨nm, some ⟨strs⟩⟩] = []
      ↔ (ds = [] ∨ ∀ d ∈ ds, dateLt d today = true) := by
  have hk : keptSweep today ⟨nm, some ⟨strs⟩⟩ = (!(expired strs today)) := by
    unfold keptSweep
    rw [hjson]
    rfl
  have hiff : expired strs today = true ↔ (ds = [] ∨ ∀ d ∈ ds, dateLt d today = true) := by
    rw [expired_iff today strs ds hparse]
    constructor
    · intro hall
      exact Or.inr (fun d hd => (dateLt_iff d today).mpr (hall d hd))
    · rintro (hnil | hall)
      · subst hnil
        intro d hd
        cases hd
      · exact fun d hd => (dateLt_iff d today).mp (hall d hd)
  cases hexp : expired strs today with
  | true =>
    have hkf : keptSweep today ⟨nm, some ⟨strs⟩⟩ = false := by rw [hk, hexp]; rfl
    have hl : cleanup_expired today [⟨nm, some ⟨strs⟩⟩] = [] := by
      simp [cleanup_expired, List.filter_cons, hkf]
    rw [hl]
    simp [hiff.mp hexp]
  | false =>
    have hkt : keptSweep today ⟨nm, some ⟨strs⟩⟩ = true := by rw [hk, hexp]; rfl
    have hnot : ¬ (ds = [] ∨ ∀ d ∈ ds, dateLt d today = true) := by
      rw [← hiff, hexp]
      simp
    have hl : cleanup_expired today [⟨nm, some ⟨strs⟩⟩] = [⟨nm, some ⟨strs⟩⟩] := by
      simp [cleanup_expired, List.filter_cons, hkt]
    rw [hl]
    constructor
    · intro hcontra
      exact List.noConfusion hcontra
    · intro hr
      exact absurd hr hnot

/-- C8 witness: on 2025-06-10 a snapshot whose only date is 2025-06-02 is
deleted, and one that also carries 2025-06-10 is retained. -/
theorem C8_sweep_witness :
    cleanup_expired ⟨2025, 6, 10⟩ [⟨"5.json", some ⟨["2025-06-02"]⟩⟩] = []
    ∧ cleanup_expired ⟨2025, 6, 10⟩ [⟨"6.json", some ⟨["2025-06-02", "2025-06-10"]⟩⟩]
        = [⟨"6.json", some ⟨["2025-06-02", "2025-06-10"]⟩⟩] :=
  ⟨(C8_sweep_deletes_iff_expired ⟨2025, 6, 10⟩ "5.json" ["2025-06-02"] [⟨2025, 6, 2⟩]
      (by rfl) (by rfl)).mpr (Or.inr (by decide)),
   by rfl⟩

/-- C10: the expiry sweep retains every file whose snapshot cannot be
loaded (missing on read, undecodable, or decoding to a falsy value) and
every file whose name does not end in ".json", even though a loadable
.json snapshot with no dates is deleted as already expired. -/
theorem C10_sweep_skips_unreadable (today : Date) :
    (∀ f : StoredFile, (f.content = none ∨ endswith f.fname ".json" = false) →
        cleanup_expired today [f] = [f])
    ∧ (∀ nm : String, endswith nm ".json" = true →
        cleanup_expired today [⟨nm, some ⟨[]⟩⟩] = []) := by
  constructor
  · intro f hf
    have hk : keptSweep today f = true := by
      unfold keptSweep
      rcases hf with hc | hj
      · rw [hc]
        by_cases hj2 : endswith f.fname ".json" = true <;> simp [hj2]
      · simp [hj]
    simp [cleanup_expired, List.filter_cons, hk]
  · intro nm hj
    have hk : keptSweep today ⟨nm, some ⟨[]⟩⟩ = false := by
      unfold keptSweep
      rw [hj]
      rfl
    simp [cleanup_expired, List.filter_cons, hk]

/-- C10 witness: an unreadable .json file and a non-.json file are
retained; a readable .json snapshot with no dates is deleted. -/
theorem C10_sweep_witness :
    cleanup_expired ⟨2025, 6, 10⟩ [⟨"a.json", none⟩] = [⟨"a.json", none⟩]
    ∧ cleanup_expired ⟨2025, 6, 10⟩ [⟨"b.txt", some ⟨["2025-01-01"]⟩⟩]
        = [⟨"b.txt", some ⟨["2025-01-01"]⟩⟩]
    ∧ cleanup_expired ⟨2025, 6, 10⟩ [⟨"c.json", some ⟨[]⟩⟩] = [] :=
  ⟨(C10_sweep_skips_unreadable ⟨2025, 6, 10⟩).1 ⟨"a.json", none⟩ (Or.inl rfl),
   (C10_sweep_skips_unreadable ⟨2025, 6, 10⟩).1 ⟨"b.txt", some ⟨["2025-01-01"]⟩⟩
     (Or.inr (by rfl)),
   (C10_sweep_skips_unreadable ⟨2025, 6, 10⟩).2 "c.json" (by rfl)⟩

end BCFMonitor
